import Mathlib

/-!
# small-projects: spotify-playlist-comparer-go and godo-list

A shallow embedding of the two Go programs of the repository and the
properties their specification states about them.

* `Spotify`: `combineTracks`, `fetchPlaylistTracks`, the `/callback` handler of
  `authenticate`, and `main` as a function from the external world (the inbound
  redirect requests and the Web API, given as a state-passing interface) to the
  calls it issues, the lines it prints and the way it exits.
* `Godo`: `isValidTableName` with its regular expression, `createNewTodoList`
  and `deleteTodoList`.
-/

namespace Spotify

/-- The Go type `spotify.ID` is a string. -/
abbrev ID := String

/-! ## `combineTracks` -/

/-- A Go `map[spotify.ID]bool`, as the list of its assignments, latest first. -/
abbrev IDSet := List (ID × Bool)

/-- The statement `m[k] = v`. -/
def IDSet.set (m : IDSet) (k : ID) (v : Bool) : IDSet := (k, v) :: m

/-- The expression `m[k]`: the latest value assigned to `k`, and the zero value
`false` for a key that was never assigned. -/
def IDSet.get : IDSet → ID → Bool
  | [], _ => false
  | (k', v) :: m, k => if k = k' then v else IDSet.get m k

/-- The first loop of `combineTracks`: `archiveSet[uri] = true` for each `uri`. -/
def buildArchiveSet (archiveURIs : List ID) : IDSet :=
  archiveURIs.foldl (fun archiveSet uri => archiveSet.set uri true) []

/-- The function `combineTracks`: the second loop appends to `combinedURIs` each
`uri` of `masterURIs` with `!archiveSet[uri]`. -/
def combineTracks (masterURIs archiveURIs : List ID) : List ID :=
  let archiveSet := buildArchiveSet archiveURIs
  masterURIs.foldl
    (fun combinedURIs uri =>
      if !archiveSet.get uri then combinedURIs ++ [uri] else combinedURIs)
    []

/-! ## Errors -/

/-- A Go `error`: a plain message, or the result of `fmt.Errorf` with a format
that ends in `%w`, which puts a text in front of the error it wraps. -/
inductive GoError where
  | message (text : String)
  | wrapped (text : String) (err : GoError)
  deriving DecidableEq, Repr

/-- The method `Error()`: the text of the error. -/
def GoError.Error : GoError → String
  | .message text => text
  | .wrapped text err => text ++ err.Error

/-- The function `errors.Unwrap`. -/
def GoError.Unwrap : GoError → Option GoError
  | .message _ => none
  | .wrapped _ err => some err

/-! ## `authenticate` -/

/-- The query of an inbound HTTP request, `r.URL.Query()`, as its key/value
pairs in the order of the URL. -/
structure Request where
  query : List (String × String)
  deriving DecidableEq, Repr

/-- The method `url.Values.Get`: the first value of the key, `""` when absent. -/
def Request.Get (r : Request) (key : String) : String :=
  match r.query.find? (fun kv => kv.1 == key) with
  | some kv => kv.2
  | none => ""

/-- An `oauth2.Token`. -/
structure OAuthToken where
  AccessToken : String
  deriving DecidableEq, Repr

/-- A `spotify.Client`, bound to the token it was created with. -/
structure Client where
  token : OAuthToken
  deriving DecidableEq, Repr

/-- The methods of `spotify.Authenticator` that the program calls. The library
is not part of the repository, so the methods are parameters. -/
structure Authenticator where
  AuthURL : String → String
  Token : String → Request → Except GoError OAuthToken
  NewClient : OAuthToken → Client

/-- The remote token endpoint: the code-for-token exchange. -/
abbrev Exchange := String → Except GoError OAuthToken

/-- The library method `Authenticator.Token(state, r)` as the library documents
it: it fails when the request carries an `error` parameter, when it carries no
`code`, and when the `state` parameter of the request differs from the argument
`state`; otherwise it exchanges the code for a token. -/
def libraryToken (exchange : Exchange) (state : String) (r : Request) :
    Except GoError OAuthToken :=
  if r.Get "error" ≠ "" then
    .error (.message ("spotify: auth failed - " ++ r.Get "error"))
  else if r.Get "code" = "" then
    .error (.message "spotify: didn't get access code")
  else if r.Get "state" ≠ state then
    .error (.message "spotify: redirect state parameter doesn't match")
  else
    exchange (r.Get "code")

/-- The authenticator of the library over a given token endpoint. `AuthURL`
embeds its argument as the `state` parameter of the authorization URL. -/
def libraryAuthenticator (exchange : Exchange) : Authenticator where
  AuthURL := fun state =>
    "https://accounts.spotify.com/authorize?response_type=code&state=" ++ state
  Token := libraryToken exchange
  NewClient := fun token => ⟨token⟩

/-- The state value that `authenticate` embeds in the authorization URL:
the argument of `auth.AuthURL("state")`. -/
def authURLState : String := "state"

/-- What one execution of the `/callback` handler does. -/
inductive Handled where
  /-- `http.Error(w, "Couldn't get token", http.StatusForbidden)` and `return`:
  no client is created and nothing is sent on `ch`. -/
  | forbidden (body : String) (status : Nat)
  /-- `client = auth.NewClient(token)` and `ch <- &client`. -/
  | delivered (client : Client)
  deriving DecidableEq, Repr

/-- The handler registered for `/callback`. -/
def callbackHandler (auth : Authenticator) (r : Request) : Handled :=
  match auth.Token (r.Get "state") r with
  | .error _ => .forbidden "Couldn't get token" 403
  | .ok token => .delivered (auth.NewClient token)

/-- The function `authenticate` over the requests that reach `/callback`, in
order: `client = *<-ch` receives the first client a handler sends. `none` is the
run in which no handler ever sends, and `authenticate` stays blocked. -/
def authenticate (auth : Authenticator) : List Request → Option Client
  | [] => none
  | r :: rs =>
    match callbackHandler auth r with
    | .delivered client => some client
    | .forbidden _ _ => authenticate auth rs

/-! ## The Web API and the calls of a run -/

/-- A `spotify.FullTrack`, of which the program reads the `ID`. -/
structure FullTrack where
  ID : Spotify.ID
  deriving DecidableEq, Repr

/-- A `spotify.PlaylistTrack`. -/
structure PlaylistTrack where
  Track : FullTrack
  deriving DecidableEq, Repr

/-- A `spotify.PlaylistTrackPage`: the tracks of one page and the URL of the
next page, `""` on the last page. -/
structure PlaylistTrackPage where
  Tracks : List PlaylistTrack
  Next : String
  deriving DecidableEq, Repr

/-- The methods of `spotify.Client` that the program calls, over a state `σ` of
the remote service. The two mutations return a snapshot id. -/
structure WebAPI (σ : Type) where
  GetPlaylistTracks : Client → ID → σ → Except GoError PlaylistTrackPage × σ
  AddTracksToPlaylist : Client → ID → List ID → σ → Except GoError String × σ
  RemoveTracksFromPlaylist : Client → ID → List ID → σ → Except GoError String × σ

/-- A call issued to the Web API, with what it returned (`none` is `nil`). -/
inductive Call where
  | GetPlaylistTracks (playlistID : ID) (playlist : Option PlaylistTrackPage)
      (err : Option GoError)
  | AddTracksToPlaylist (playlistID : ID) (trackURIs : List ID) (err : Option GoError)
  | RemoveTracksFromPlaylist (playlistID : ID) (trackURIs : List ID) (err : Option GoError)
  deriving DecidableEq, Repr

/-- The remote service together with the calls issued so far, oldest first. -/
structure World (σ : Type) where
  service : σ
  calls : List Call

/-- The error of a result, `none` for `nil`. -/
def errOf {α : Type} : Except GoError α → Option GoError
  | .error err => some err
  | .ok _ => none

/-- The value of a result, `none` for `nil`. -/
def valueOf {α : Type} : Except GoError α → Option α
  | .error _ => none
  | .ok a => some a

/-- The function `fetchPlaylistTracks`. Its two results are a pair: the track
list (`[]` is the nil slice) and the error (`none` is `nil`). -/
def fetchPlaylistTracks {σ : Type} (api : WebAPI σ) (client : Client) (playlistID : ID)
    (w : World σ) : (List ID × Option GoError) × World σ :=
  let r := api.GetPlaylistTracks client playlistID w.service
  let w' : World σ := ⟨r.2, w.calls ++ [Call.GetPlaylistTracks playlistID (valueOf r.1) (errOf r.1)]⟩
  match r.1 with
  | .error err => (([], some (.wrapped "failed to fetch playlist tracks: " err)), w')
  | .ok playlist =>
    ((playlist.Tracks.foldl (fun trackURIs item => trackURIs ++ [item.Track.ID]) [], none), w')

/-- The function `addTracksToPlaylist`. -/
def addTracksToPlaylist {σ : Type} (api : WebAPI σ) (client : Client) (playlistID : ID)
    (trackURIs : List ID) (w : World σ) : Option GoError × World σ :=
  let r := api.AddTracksToPlaylist client playlistID trackURIs w.service
  let w' : World σ :=
    ⟨r.2, w.calls ++ [Call.AddTracksToPlaylist playlistID trackURIs (errOf r.1)]⟩
  match r.1 with
  | .error err => (some (.wrapped "failed to add tracks to playlist: " err), w')
  | .ok _ => (none, w')

/-- The function `removeTracksFromPlaylist`. -/
def removeTracksFromPlaylist {σ : Type} (api : WebAPI σ) (client : Client) (playlistID : ID)
    (trackURIs : List ID) (w : World σ) : Option GoError × World σ :=
  let r := api.RemoveTracksFromPlaylist client playlistID trackURIs w.service
  let w' : World σ :=
    ⟨r.2, w.calls ++ [Call.RemoveTracksFromPlaylist playlistID trackURIs (errOf r.1)]⟩
  match r.1 with
  | .error err => (some (.wrapped "failed to remove tracks from playlist: " err), w')
  | .ok _ => (none, w')

/-! ## `main` -/

/-- The two playlist ids that `init` reads from the environment. -/
structure Config where
  masterPlaylist : ID
  archivePlaylist : ID

/-- How a run of `main` ends. -/
inductive Exit where
  /-- `authenticate` never returns. -/
  | blocked
  /-- `log.Fatalf`: the message is logged and the process exits with status 1. -/
  | fatal (msg : String)
  /-- `main` returns. -/
  | returned
  deriving DecidableEq, Repr

/-- A run of `main`: the world it leaves, the lines it printed and its end. -/
structure Run (σ : Type) where
  world : World σ
  stdout : List String
  exit : Exit

/-- The function `main`, from the requests that reach `/callback` and the
initial state of the remote service. -/
def main {σ : Type} (cfg : Config) (auth : Authenticator) (api : WebAPI σ)
    (requests : List Request) (s : σ) : Run σ :=
  let w0 : World σ := ⟨s, []⟩
  match authenticate auth requests with
  | none => ⟨w0, [], .blocked⟩
  | some client =>
    let out1 := ["Fetching tracks from the master playlist..."]
    match fetchPlaylistTracks api client cfg.masterPlaylist w0 with
    | ((_, some err), w1) =>
      ⟨w1, out1, .fatal ("Error fetching master playlist tracks: " ++ err.Error)⟩
    | ((masterURIs, none), w1) =>
      let out2 := out1 ++ ["Fetching tracks from the archive playlist..."]
      match fetchPlaylistTracks api client cfg.archivePlaylist w1 with
      | ((_, some err), w2) =>
        ⟨w2, out2, .fatal ("Error fetching archive playlist tracks: " ++ err.Error)⟩
      | ((archiveURIs, none), w2) =>
        let combinedURIs := combineTracks masterURIs archiveURIs
        if combinedURIs.length > 0 then
          let out3 := out2 ++ ["Adding tracks to the archive playlist..."]
          match addTracksToPlaylist api client cfg.archivePlaylist combinedURIs w2 with
          | (some err, w3) =>
            ⟨w3, out3, .fatal ("Error adding tracks to archive playlist: " ++ err.Error)⟩
          | (none, w3) =>
            let out4 := out3 ++ ["Removing tracks from the master playlist..."]
            match removeTracksFromPlaylist api client cfg.masterPlaylist masterURIs w3 with
            | (some err, w4) =>
              ⟨w4, out4, .fatal ("Error removing tracks from master playlist: " ++ err.Error)⟩
            | (none, w4) =>
              ⟨w4, out4 ++ ["Tracks have been successfully moved."], .returned⟩
        else
          ⟨w2, out2 ++ ["No new tracks to move."], .returned⟩

/-! ## A paginated service -/

/-- The ids of the tracks of a page. -/
def trackIDs (page : List PlaylistTrack) : List ID := page.map (fun item => item.Track.ID)

/-- A service that serves the track collection of the playlist `playlistID` as
the pages `pages playlistID`, or fails to: `GetPlaylistTracks` answers with the
first page, whose `Next` is set when more pages follow. A playlist without
tracks is served as one empty page. The two mutations change nothing and return
the given errors. -/
def pagedService (pages : ID → Except GoError (List (List PlaylistTrack)))
    (addErr removeErr : Option GoError) : WebAPI Unit where
  GetPlaylistTracks := fun _ playlistID s =>
    match pages playlistID with
    | .error err => (.error err, s)
    | .ok [] => (.ok ⟨[], ""⟩, s)
    | .ok [p] => (.ok ⟨p, ""⟩, s)
    | .ok (p :: _ :: _) => (.ok ⟨p, "next"⟩, s)
  AddTracksToPlaylist := fun _ _ _ s =>
    match addErr with
    | some err => (.error err, s)
    | none => (.ok "snapshot", s)
  RemoveTracksFromPlaylist := fun _ _ _ s =>
    match removeErr with
    | some err => (.error err, s)
    | none => (.ok "snapshot", s)

/-- A playlist track with the given id. -/
def track (id : ID) : PlaylistTrack := ⟨⟨id⟩⟩

/-- The configuration of the examples. -/
def exampleConfig : Config := ⟨"master", "archive"⟩

/-- A token endpoint that accepts every code. -/
def acceptingExchange : Exchange := fun code => .ok ⟨"token-for-" ++ code⟩

/-- The redirect of the provider after a login: the code and the state of the
authorization URL. -/
def genuineRequest : Request := ⟨[("code", "abc"), ("state", "state")]⟩

/-- A redirect whose state is not the one of the authorization URL. -/
def forgedRequest : Request := ⟨[("code", "abc"), ("state", "evil")]⟩

/-- The playlists of the examples: master is t1, t2, t3 and archive is t2. -/
def examplePages : ID → Except GoError (List (List PlaylistTrack)) := fun playlistID =>
  if playlistID = "master" then .ok [[track "t1", track "t2", track "t3"]]
  else if playlistID = "archive" then .ok [[track "t2"]]
  else .error (.message "not found")

/-- Playlists of which everything in master is archived already. -/
def archivedPages : ID → Except GoError (List (List PlaylistTrack)) := fun playlistID =>
  if playlistID = "master" then .ok [[track "t2"]]
  else if playlistID = "archive" then .ok [[track "t1", track "t2"]]
  else .error (.message "not found")

/-- A master playlist that the service serves as two pages. -/
def twoPages : ID → Except GoError (List (List PlaylistTrack)) := fun _ =>
  .ok [[track "t1"], [track "t2"]]

end Spotify

namespace Godo

/-! ## `isValidTableName` -/

/-- The regular expressions that the pattern of `isValidTableName` is made of. -/
inductive Regexp where
  /-- `^`: the beginning of the text. -/
  | beginText
  /-- `$` without the flag `m`: the end of the text. -/
  | endText
  /-- A character class `[...]`, as the list of its ranges. -/
  | charClass (ranges : List (Char × Char))
  /-- One or more repetitions, `sub+`. -/
  | plus (sub : Regexp)
  /-- Concatenation. -/
  | concat (fst snd : Regexp)
  deriving Repr

/-- Whether a character lies in one of the ranges of a class. -/
def inClass (ranges : List (Char × Char)) (c : Char) : Bool :=
  ranges.any (fun lohi => decide (lohi.1 ≤ c) && decide (c ≤ lohi.2))

/-- A point reached in the text: the number of characters before it and the
characters after it. -/
abbrev Pos := Nat × List Char

/-- All the points reached by following `step` one time or more, at most `fuel`
times. -/
def iterate (step : Pos → List Pos) : Nat → Pos → List Pos
  | 0, _ => []
  | fuel + 1, p => (step p).flatMap (fun q => q :: iterate step fuel q)

/-- The points at which a match of the expression that starts at `p` can end. -/
def Regexp.run : Regexp → Pos → List Pos
  | .beginText, p => if p.1 = 0 then [p] else []
  | .endText, p => if p.2 = [] then [p] else []
  | .charClass ranges, p =>
    match p.2 with
    | [] => []
    | c :: rest => if inClass ranges c then [(p.1 + 1, rest)] else []
  | .plus sub, p => iterate (fun q => sub.run q) (p.2.length + 1) p
  | .concat fst snd, p => (fst.run p).flatMap (fun q => snd.run q)

/-- The method `MatchString`: whether the text contains a match, starting at any
of its positions. -/
def Regexp.MatchString (re : Regexp) (s : String) : Bool :=
  (List.range (s.length + 1)).any (fun i => !(re.run (i, s.toList.drop i)).isEmpty)

/-- The pattern `^[a-zA-Z0-9_]+$`. -/
def validName : Regexp :=
  .concat .beginText
    (.concat (.plus (.charClass [('a', 'z'), ('A', 'Z'), ('0', '9'), ('_', '_')])) .endText)

/-- The function `isValidTableName`. -/
def isValidTableName (tableName : String) : Bool :=
  validName.MatchString tableName

/-! ## `createNewTodoList` and `deleteTodoList` -/

/-- The method `db.Exec` for a statement without arguments, over a state `σ` of
the database; `none` is the `nil` error. -/
abbrev Exec (σ : Type) := String → σ → Option String × σ

/-- The database, the statements executed so far and the text printed so far. -/
structure Session (σ : Type) where
  db : σ
  executed : List String
  stdout : List String

/-- The statement that `createNewTodoList` formats for a table name. -/
def createStatement (tableName : String) : String :=
  "\n        CREATE TABLE IF NOT EXISTS " ++ tableName ++ " (\n"
    ++ "            id INTEGER PRIMARY KEY AUTOINCREMENT,\n"
    ++ "            task TEXT NOT NULL,\n"
    ++ "            completed INTEGER DEFAULT 0\n"
    ++ "        )\n    "

/-- The statement that `deleteTodoList` formats for a table name. -/
def dropStatement (tableName : String) : String :=
  "DROP TABLE IF EXISTS " ++ tableName

/-- The function `createNewTodoList`, from the name that `fmt.Scan` stored in
`tableName`. -/
def createNewTodoList {σ : Type} (exec : Exec σ) (tableName : String) (w : Session σ) :
    Session σ :=
  let out := w.stdout ++ ["Please provide a name for your new todo list: "]
  if !isValidTableName tableName then
    { w with stdout := out ++
        ["Invalid table name. Please use only alphanumeric characters and underscores.\n"] }
  else
    let r := exec (createStatement tableName) w.db
    let done := w.executed ++ [createStatement tableName]
    match r.1 with
    | some err =>
      ⟨r.2, done, out ++ ["Failed to create table '" ++ tableName ++ "': " ++ err ++ "\n"]⟩
    | none =>
      ⟨r.2, done, out ++ ["Table '" ++ tableName ++ "' created successfully.\n"]⟩

/-- The function `deleteTodoList`, from the name that `fmt.Scan` stored in
`tableName`. -/
def deleteTodoList {σ : Type} (exec : Exec σ) (tableName : String) (w : Session σ) :
    Session σ :=
  let out := w.stdout ++ ["Please select a todo list to delete: "]
  if !isValidTableName tableName then
    { w with stdout := out ++
        ["Invalid table name. Please use only alphanumeric characters and underscores.\n"] }
  else
    let r := exec (dropStatement tableName) w.db
    let done := w.executed ++ [dropStatement tableName]
    match r.1 with
    | some err =>
      ⟨r.2, done, out ++ ["Failed to delete table '" ++ tableName ++ "': " ++ err ++ "\n"]⟩
    | none =>
      ⟨r.2, done, out ++ ["Table '" ++ tableName ++ "' deleted successfully.\n"]⟩

end Godo

/-! # Theorems -/

namespace Spotify

theorem IDSet.get_foldl_set (A : List ID) (m : IDSet) (x : ID) :
    IDSet.get (A.foldl (fun s uri => IDSet.set s uri true) m) x
      = (decide (x ∈ A) || IDSet.get m x) := by
  induction A generalizing m with
  | nil => simp
  | cons a A ih =>
    rw [List.foldl_cons, ih]
    by_cases h : x = a
    · simp [IDSet.set, IDSet.get, h]
    · simp [IDSet.set, IDSet.get, h]

theorem get_buildArchiveSet (A : List ID) (x : ID) :
    (buildArchiveSet A).get x = decide (x ∈ A) := by
  simp [buildArchiveSet, IDSet.get_foldl_set, IDSet.get]

theorem foldl_append_filter (p : ID → Bool) (M acc : List ID) :
    M.foldl (fun c uri => if p uri then c ++ [uri] else c) acc = acc ++ M.filter p := by
  induction M generalizing acc with
  | nil => simp
  | cons a M ih =>
    rw [List.foldl_cons, ih]
    by_cases h : p a = true
    · simp [h, List.filter_cons]
    · simp [h, List.filter_cons]

theorem combineTracks_eq_filter (M A : List ID) :
    combineTracks M A = M.filter (fun x => decide (x ∉ A)) := by
  unfold combineTracks
  simp only []
  rw [foldl_append_filter (fun uri => !(buildArchiveSet A).get uri) M []]
  simp [get_buildArchiveSet]

theorem foldl_append_trackIDs (page : List PlaylistTrack) (acc : List ID) :
    page.foldl (fun trackURIs item => trackURIs ++ [item.Track.ID]) acc
      = acc ++ trackIDs page := by
  induction page generalizing acc with
  | nil => simp [trackIDs]
  | cons a page ih =>
    rw [List.foldl_cons, ih]
    simp [trackIDs]

theorem fetchPlaylistTracks_eq {σ : Type} (api : WebAPI σ) (client : Client) (playlistID : ID)
    (w : World σ) :
    fetchPlaylistTracks api client playlistID w =
      match api.GetPlaylistTracks client playlistID w.service with
      | (.error err, s') =>
        (([], some (.wrapped "failed to fetch playlist tracks: " err)),
          ⟨s', w.calls ++ [Call.GetPlaylistTracks playlistID none (some err)]⟩)
      | (.ok playlist, s') =>
        ((trackIDs playlist.Tracks, none),
          ⟨s', w.calls ++ [Call.GetPlaylistTracks playlistID (some playlist) none]⟩) := by
  unfold fetchPlaylistTracks
  rcases h : api.GetPlaylistTracks client playlistID w.service with ⟨r, s'⟩
  cases r <;> simp [valueOf, errOf, foldl_append_trackIDs]

theorem addTracksToPlaylist_eq {σ : Type} (api : WebAPI σ) (client : Client) (playlistID : ID)
    (trackURIs : List ID) (w : World σ) :
    addTracksToPlaylist api client playlistID trackURIs w =
      match api.AddTracksToPlaylist client playlistID trackURIs w.service with
      | (.error err, s') =>
        (some (.wrapped "failed to add tracks to playlist: " err),
          ⟨s', w.calls ++ [Call.AddTracksToPlaylist playlistID trackURIs (some err)]⟩)
      | (.ok _, s') =>
        (none, ⟨s', w.calls ++ [Call.AddTracksToPlaylist playlistID trackURIs none]⟩) := by
  unfold addTracksToPlaylist
  rcases h : api.AddTracksToPlaylist client playlistID trackURIs w.service with ⟨r, s'⟩
  cases r <;> simp [errOf]

theorem removeTracksFromPlaylist_eq {σ : Type} (api : WebAPI σ) (client : Client)
    (playlistID : ID) (trackURIs : List ID) (w : World σ) :
    removeTracksFromPlaylist api client playlistID trackURIs w =
      match api.RemoveTracksFromPlaylist client playlistID trackURIs w.service with
      | (.error err, s') =>
        (some (.wrapped "failed to remove tracks from playlist: " err),
          ⟨s', w.calls ++ [Call.RemoveTracksFromPlaylist playlistID trackURIs (some err)]⟩)
      | (.ok _, s') =>
        (none, ⟨s', w.calls ++ [Call.RemoveTracksFromPlaylist playlistID trackURIs none]⟩) := by
  unfold removeTracksFromPlaylist
  rcases h : api.RemoveTracksFromPlaylist client playlistID trackURIs w.service with ⟨r, s'⟩
  cases r <;> simp [errOf]

/-- The seven ways a run of `main` can go, each with the calls it issues, in
order, and its end. -/
theorem main_cases {σ : Type} (cfg : Config) (auth : Authenticator) (api : WebAPI σ)
    (requests : List Request) (s : σ) :
    (authenticate auth requests = none ∧
      (main cfg auth api requests s).world.calls = [] ∧
      (main cfg auth api requests s).exit = .blocked) ∨
    (∃ err,
      (main cfg auth api requests s).world.calls =
        [Call.GetPlaylistTracks cfg.masterPlaylist none (some err)] ∧
      (main cfg auth api requests s).exit =
        .fatal ("Error fetching master playlist tracks: "
          ++ ("failed to fetch playlist tracks: " ++ err.Error))) ∨
    (∃ pm err,
      (main cfg auth api requests s).world.calls =
        [Call.GetPlaylistTracks cfg.masterPlaylist (some pm) none,
         Call.GetPlaylistTracks cfg.archivePlaylist none (some err)] ∧
      (main cfg auth api requests s).exit =
        .fatal ("Error fetching archive playlist tracks: "
          ++ ("failed to fetch playlist tracks: " ++ err.Error))) ∨
    (∃ pm pa,
      combineTracks (trackIDs pm.Tracks) (trackIDs pa.Tracks) = [] ∧
      (main cfg auth api requests s).world.calls =
        [Call.GetPlaylistTracks cfg.masterPlaylist (some pm) none,
         Call.GetPlaylistTracks cfg.archivePlaylist (some pa) none] ∧
      (main cfg auth api requests s).exit = .returned) ∨
    (∃ pm pa err,
      combineTracks (trackIDs pm.Tracks) (trackIDs pa.Tracks) ≠ [] ∧
      (main cfg auth api requests s).world.calls =
        [Call.GetPlaylistTracks cfg.masterPlaylist (some pm) none,
         Call.GetPlaylistTracks cfg.archivePlaylist (some pa) none,
         Call.AddTracksToPlaylist cfg.archivePlaylist
           (combineTracks (trackIDs pm.Tracks) (trackIDs pa.Tracks)) (some err)] ∧
      (main cfg auth api requests s).exit =
        .fatal ("Error adding tracks to archive playlist: "
          ++ ("failed to add tracks to playlist: " ++ err.Error))) ∨
    (∃ pm pa err,
      combineTracks (trackIDs pm.Tracks) (trackIDs pa.Tracks) ≠ [] ∧
      (main cfg auth api requests s).world.calls =
        [Call.GetPlaylistTracks cfg.masterPlaylist (some pm) none,
         Call.GetPlaylistTracks cfg.archivePlaylist (some pa) none,
         Call.AddTracksToPlaylist cfg.archivePlaylist
           (combineTracks (trackIDs pm.Tracks) (trackIDs pa.Tracks)) none,
         Call.RemoveTracksFromPlaylist cfg.masterPlaylist (trackIDs pm.Tracks) (some err)] ∧
      (main cfg auth api requests s).exit =
        .fatal ("Error removing tracks from master playlist: "
          ++ ("failed to remove tracks from playlist: " ++ err.Error))) ∨
    (∃ pm pa,
      combineTracks (trackIDs pm.Tracks) (trackIDs pa.Tracks) ≠ [] ∧
      (main cfg auth api requests s).world.calls =
        [Call.GetPlaylistTracks cfg.masterPlaylist (some pm) none,
         Call.GetPlaylistTracks cfg.archivePlaylist (some pa) none,
         Call.AddTracksToPlaylist cfg.archivePlaylist
           (combineTracks (trackIDs pm.Tracks) (trackIDs pa.Tracks)) none,
         Call.RemoveTracksFromPlaylist cfg.masterPlaylist (trackIDs pm.Tracks) none] ∧
      (main cfg auth api requests s).exit = .returned) := by
  unfold main
  cases hauth : authenticate auth requests with
  | none => left; simp
  | some client =>
    right
    simp only [fetchPlaylistTracks_eq]
    rcases hm : api.GetPlaylistTracks client cfg.masterPlaylist s with ⟨rm, s1⟩
    cases rm with
    | error err => left; exact ⟨err, by simp [GoError.Error]⟩
    | ok pm =>
      right
      simp only []
      rcases ha : api.GetPlaylistTracks client cfg.archivePlaylist s1 with ⟨ra, s2⟩
      cases ra with
      | error err => left; exact ⟨pm, err, by simp [GoError.Error]⟩
      | ok pa =>
        right
        simp only []
        by_cases hc : combineTracks (trackIDs pm.Tracks) (trackIDs pa.Tracks) = []
        · left
          exact ⟨pm, pa, hc, by simp [hc]⟩
        · right
          have hlen : (combineTracks (trackIDs pm.Tracks) (trackIDs pa.Tracks)).length > 0 :=
            List.length_pos.mpr hc
          simp only [hlen, if_true, addTracksToPlaylist_eq]
          rcases hadd : api.AddTracksToPlaylist client cfg.archivePlaylist
            (combineTracks (trackIDs pm.Tracks) (trackIDs pa.Tracks)) s2 with ⟨radd, s3⟩
          cases radd with
          | error err => left; exact ⟨pm, pa, err, hc, by simp [GoError.Error]⟩
          | ok snap =>
            right
            simp only [removeTracksFromPlaylist_eq]
            rcases hrem : api.RemoveTracksFromPlaylist client cfg.masterPlaylist
              (trackIDs pm.Tracks) s3 with ⟨rrem, s4⟩
            cases rrem with
            | error err => left; exact ⟨pm, pa, err, hc, by simp [GoError.Error]⟩
            | ok snap2 => right; exact ⟨pm, pa, hc, by simp⟩

/-- C1: `combineTracks M A` is `M` with exactly the ids that occur in `A` filtered
out: it keeps the elements of `M` that are not in `A`, in the order and with the
multiplicities of `M`, so it holds no id of `A` and only ids of `M`. -/
theorem combineTracks_filters_archive (M A : List ID) :
    combineTracks M A = M.filter (fun x => decide (x ∉ A)) ∧
    (∀ x, x ∈ combineTracks M A ↔ x ∈ M ∧ x ∉ A) ∧
    (combineTracks M A).Sublist M ∧
    (∀ x, x ∉ A → (combineTracks M A).count x = M.count x) ∧
    (∀ x, x ∈ A → (combineTracks M A).count x = 0) := by
  rw [combineTracks_eq_filter]
  refine ⟨rfl, ?_, List.filter_sublist M, ?_, ?_⟩
  · intro x
    simp [List.mem_filter]
  · intro x hx
    rw [List.count_filter]
    simpa using hx
  · intro x hx
    rw [List.count_eq_zero]
    simp [List.mem_filter, hx]

/-- C9: with an empty archive `combineTracks` returns the master list. -/
theorem combineTracks_empty_archive (M : List ID) : combineTracks M [] = M := by
  rw [combineTracks_eq_filter]
  simp

/-- C4: retrying is safe. With `T = combineTracks M A`, every list `M'` whose ids
all occur in `M` has `combineTracks M' (A ++ T) = []`. -/
theorem combineTracks_retry_empty (M A M' : List ID) (h : ∀ x ∈ M', x ∈ M) :
    combineTracks M' (A ++ combineTracks M A) = [] := by
  rw [combineTracks_eq_filter, combineTracks_eq_filter, List.filter_eq_nil_iff]
  intro x hx
  have hM := h x hx
  by_cases hA : x ∈ A
  · simp [hA]
  · simp [List.mem_filter, hM, hA]

/-- The example of C4: master t1, t2, t3 and archive t2 give t1, t3, and the plan
of the retry against the archive t2, t1, t3 is empty, before the removal
(`M' = M`) and after it (`M' = []`). -/
theorem combineTracks_retry_empty_witness :
    combineTracks ["t1", "t2", "t3"] ["t2"] = ["t1", "t3"] ∧
    combineTracks ["t1", "t2", "t3"] (["t2"] ++ combineTracks ["t1", "t2", "t3"] ["t2"]) = [] ∧
    combineTracks [] (["t2"] ++ combineTracks ["t1", "t2", "t3"] ["t2"]) = [] :=
  ⟨by decide,
   combineTracks_retry_empty ["t1", "t2", "t3"] ["t2"] ["t1", "t2", "t3"] (fun _ hx => hx),
   combineTracks_retry_empty ["t1", "t2", "t3"] ["t2"] [] (by simp)⟩

theorem mem_pre_of_four {α : Type} (c1 c2 c3 c4 x : α) (pre post : List α)
    (h : [c1, c2, c3, c4] = pre ++ x :: post) (h1 : x ≠ c1) (h2 : x ≠ c2) (h3 : x ≠ c3) :
    pre = [c1, c2, c3] ∧ x = c4 ∧ post = [] := by
  rcases pre with _ | ⟨a, _ | ⟨b, _ | ⟨c, _ | ⟨d, pre⟩⟩⟩⟩
  · simp only [List.nil_append, List.cons.injEq] at h
    exact absurd h.1.symm h1
  · simp only [List.cons_append, List.nil_append, List.cons.injEq] at h
    exact absurd h.2.1.symm h2
  · simp only [List.cons_append, List.nil_append, List.cons.injEq] at h
    exact absurd h.2.2.1.symm h3
  · simp only [List.cons_append, List.nil_append, List.cons.injEq] at h
    obtain ⟨rfl, rfl, rfl, rfl, hp⟩ := h
    exact ⟨rfl, rfl, hp.symm⟩
  · simp at h

/-- C2: in every run of `main` a remove call is issued only after an add call that
returned without error; and when the add call fails, no remove call is issued,
the failed add is the last call of the run, and the run ends in `log.Fatalf` with
the add failure. -/
theorem remove_only_after_add {σ : Type} (cfg : Config) (auth : Authenticator)
    (api : WebAPI σ) (requests : List Request) (s : σ) :
    (∀ pre post p ts e,
      (main cfg auth api requests s).world.calls
        = pre ++ Call.RemoveTracksFromPlaylist p ts e :: post →
      ∃ q us, Call.AddTracksToPlaylist q us none ∈ pre) ∧
    (∀ q us err,
      Call.AddTracksToPlaylist q us (some err) ∈ (main cfg auth api requests s).world.calls →
      (∀ p ts e,
        Call.RemoveTracksFromPlaylist p ts e ∉ (main cfg auth api requests s).world.calls) ∧
      (main cfg auth api requests s).world.calls.getLast?
        = some (Call.AddTracksToPlaylist q us (some err)) ∧
      (main cfg auth api requests s).exit =
        .fatal ("Error adding tracks to archive playlist: "
          ++ ("failed to add tracks to playlist: " ++ err.Error))) := by
  rcases main_cases cfg auth api requests s with
    ⟨-, hc, -⟩ | ⟨e1, hc, -⟩ | ⟨pm, e1, hc, -⟩ | ⟨pm, pa, -, hc, -⟩ | ⟨pm, pa, e1, -, hc, hx⟩ |
    ⟨pm, pa, e1, -, hc, -⟩ | ⟨pm, pa, -, hc, -⟩
  · rw [hc]
    refine ⟨fun pre post p ts e h => ?_, fun q us err h => ?_⟩
    · have hm : Call.RemoveTracksFromPlaylist p ts e ∈ ([] : List Call) := by rw [h]; simp
      simp at hm
    · simp at h
  · rw [hc]
    refine ⟨fun pre post p ts e h => ?_, fun q us err h => ?_⟩
    · have hm : Call.RemoveTracksFromPlaylist p ts e ∈
          [Call.GetPlaylistTracks cfg.masterPlaylist none (some e1)] := by rw [h]; simp
      simp at hm
    · simp at h
  · rw [hc]
    refine ⟨fun pre post p ts e h => ?_, fun q us err h => ?_⟩
    · have hm : Call.RemoveTracksFromPlaylist p ts e ∈
          [Call.GetPlaylistTracks cfg.masterPlaylist (some pm) none,
           Call.GetPlaylistTracks cfg.archivePlaylist none (some e1)] := by rw [h]; simp
      simp at hm
    · simp at h
  · rw [hc]
    refine ⟨fun pre post p ts e h => ?_, fun q us err h => ?_⟩
    · have hm : Call.RemoveTracksFromPlaylist p ts e ∈
          [Call.GetPlaylistTracks cfg.masterPlaylist (some pm) none,
           Call.GetPlaylistTracks cfg.archivePlaylist (some pa) none] := by rw [h]; simp
      simp at hm
    · simp at h
  · rw [hc]
    refine ⟨fun pre post p ts e h => ?_, fun q us err h => ?_⟩
    · have hm : Call.RemoveTracksFromPlaylist p ts e ∈
          [Call.GetPlaylistTracks cfg.masterPlaylist (some pm) none,
           Call.GetPlaylistTracks cfg.archivePlaylist (some pa) none,
           Call.AddTracksToPlaylist cfg.archivePlaylist
             (combineTracks (trackIDs pm.Tracks) (trackIDs pa.Tracks)) (some e1)] := by
        rw [h]; simp
      simp at hm
    · simp at h
      obtain ⟨rfl, rfl, rfl⟩ := h
      exact ⟨by simp, by simp, hx⟩
  · rw [hc]
    refine ⟨fun pre post p ts e h => ?_, fun q us err h => ?_⟩
    · obtain ⟨rfl, -, -⟩ := mem_pre_of_four _ _ _ _ _ pre post h (by simp) (by simp) (by simp)
      exact ⟨cfg.archivePlaylist, combineTracks (trackIDs pm.Tracks) (trackIDs pa.Tracks),
        by simp⟩
    · simp at h
  · rw [hc]
    refine ⟨fun pre post p ts e h => ?_, fun q us err h => ?_⟩
    · obtain ⟨rfl, -, -⟩ := mem_pre_of_four _ _ _ _ _ pre post h (by simp) (by simp) (by simp)
      exact ⟨cfg.archivePlaylist, combineTracks (trackIDs pm.Tracks) (trackIDs pa.Tracks),
        by simp⟩
    · simp at h

/-- Two runs for C2 on master t1, t2, t3 and archive t2. In the first every call
succeeds and the remove call comes after the add call; in the second the add call
fails and is the last call. -/
theorem remove_only_after_add_witness :
    (∃ q us, Call.AddTracksToPlaylist q us none ∈
      [Call.GetPlaylistTracks "master" (some ⟨[track "t1", track "t2", track "t3"], ""⟩) none,
       Call.GetPlaylistTracks "archive" (some ⟨[track "t2"], ""⟩) none,
       Call.AddTracksToPlaylist "archive" ["t1", "t3"] none]) ∧
    ((∀ p ts e, Call.RemoveTracksFromPlaylist p ts e ∉
        (main exampleConfig (libraryAuthenticator acceptingExchange)
          (pagedService examplePages (some (.message "rejected")) none)
          [genuineRequest] ()).world.calls) ∧
      (main exampleConfig (libraryAuthenticator acceptingExchange)
          (pagedService examplePages (some (.message "rejected")) none)
          [genuineRequest] ()).world.calls.getLast?
        = some (Call.AddTracksToPlaylist "archive" ["t1", "t3"] (some (.message "rejected"))) ∧
      (main exampleConfig (libraryAuthenticator acceptingExchange)
          (pagedService examplePages (some (.message "rejected")) none)
          [genuineRequest] ()).exit =
        .fatal ("Error adding tracks to archive playlist: "
          ++ ("failed to add tracks to playlist: " ++ (GoError.message "rejected").Error))) :=
  ⟨(remove_only_after_add exampleConfig (libraryAuthenticator acceptingExchange)
      (pagedService examplePages none none) [genuineRequest] ()).1
      [Call.GetPlaylistTracks "master" (some ⟨[track "t1", track "t2", track "t3"], ""⟩) none,
       Call.GetPlaylistTracks "archive" (some ⟨[track "t2"], ""⟩) none,
       Call.AddTracksToPlaylist "archive" ["t1", "t3"] none]
      [] "master" ["t1", "t2", "t3"] none (by decide),
   (remove_only_after_add exampleConfig (libraryAuthenticator acceptingExchange)
      (pagedService examplePages (some (.message "rejected")) none) [genuineRequest] ()).2
      "archive" ["t1", "t3"] (.message "rejected") (by decide)⟩

/-- C5: when a run of `main` issues a remove call, the run made exactly four
calls: the fetch of master, the fetch of archive, the add call on the archive
playlist with `combineTracks` of the two fetched lists, which returned without
error, and last the remove call, on the master playlist with the whole master
list as it was fetched. -/
theorem remove_is_fetched_master {σ : Type} (cfg : Config) (auth : Authenticator)
    (api : WebAPI σ) (requests : List Request) (s : σ) (p : ID) (ts : List ID)
    (e : Option GoError)
    (h : Call.RemoveTracksFromPlaylist p ts e ∈ (main cfg auth api requests s).world.calls) :
    ∃ pm pa,
      (main cfg auth api requests s).world.calls =
        [Call.GetPlaylistTracks cfg.masterPlaylist (some pm) none,
         Call.GetPlaylistTracks cfg.archivePlaylist (some pa) none,
         Call.AddTracksToPlaylist cfg.archivePlaylist
           (combineTracks (trackIDs pm.Tracks) (trackIDs pa.Tracks)) none,
         Call.RemoveTracksFromPlaylist cfg.masterPlaylist (trackIDs pm.Tracks) e] ∧
      p = cfg.masterPlaylist ∧ ts = trackIDs pm.Tracks := by
  rcases main_cases cfg auth api requests s with
    ⟨-, hc, -⟩ | ⟨e1, hc, -⟩ | ⟨pm, e1, hc, -⟩ | ⟨pm, pa, -, hc, -⟩ | ⟨pm, pa, e1, -, hc, -⟩ |
    ⟨pm, pa, e1, -, hc, -⟩ | ⟨pm, pa, -, hc, -⟩
  · rw [hc] at h; simp at h
  · rw [hc] at h; simp at h
  · rw [hc] at h; simp at h
  · rw [hc] at h; simp at h
  · rw [hc] at h; simp at h
  · rw [hc] at h ⊢
    simp at h
    obtain ⟨rfl, rfl, rfl⟩ := h
    exact ⟨pm, pa, rfl, rfl, rfl⟩
  · rw [hc] at h ⊢
    simp at h
    obtain ⟨rfl, rfl, rfl⟩ := h
    exact ⟨pm, pa, rfl, rfl, rfl⟩

/-- A run for C5 on master t1, t2, t3 and archive t2: t2 is in the archive already
and is removed from master all the same. -/
theorem remove_is_fetched_master_witness :
    ∃ pm pa,
      (main exampleConfig (libraryAuthenticator acceptingExchange)
        (pagedService examplePages none none) [genuineRequest] ()).world.calls =
        [Call.GetPlaylistTracks exampleConfig.masterPlaylist (some pm) none,
         Call.GetPlaylistTracks exampleConfig.archivePlaylist (some pa) none,
         Call.AddTracksToPlaylist exampleConfig.archivePlaylist
           (combineTracks (trackIDs pm.Tracks) (trackIDs pa.Tracks)) none,
         Call.RemoveTracksFromPlaylist exampleConfig.masterPlaylist (trackIDs pm.Tracks) none] ∧
      "master" = exampleConfig.masterPlaylist ∧ ["t1", "t2", "t3"] = trackIDs pm.Tracks :=
  remove_is_fetched_master exampleConfig (libraryAuthenticator acceptingExchange)
    (pagedService examplePages none none) [genuineRequest] () "master" ["t1", "t2", "t3"] none
    (by decide)

/-- C6: an empty plan is a no-op. When the fetched lists `M` and `A` are such that
every id of `M` occurs in `A`, which is when `combineTracks M A` is empty,
the run issues no call after the two fetches, prints that there is nothing to
move and returns. -/
theorem empty_plan_is_noop {σ : Type} (cfg : Config) (auth : Authenticator)
    (api : WebAPI σ) (requests : List Request) (s : σ) (client : Client)
    (M A : List ID) (w1 w2 : World σ)
    (hauth : authenticate auth requests = some client)
    (hm : fetchPlaylistTracks api client cfg.masterPlaylist ⟨s, []⟩ = ((M, none), w1))
    (ha : fetchPlaylistTracks api client cfg.archivePlaylist w1 = ((A, none), w2))
    (hc : combineTracks M A = []) :
    (∀ x ∈ M, x ∈ A) ∧
    (main cfg auth api requests s).world.service = w2.service ∧
    (main cfg auth api requests s).world.calls = w2.calls ∧
    (∀ c ∈ (main cfg auth api requests s).world.calls,
      ∃ p pg err, c = Call.GetPlaylistTracks p pg err) ∧
    (main cfg auth api requests s).stdout =
      ["Fetching tracks from the master playlist...",
       "Fetching tracks from the archive playlist...",
       "No new tracks to move."] ∧
    (main cfg auth api requests s).exit = .returned := by
  have hsub : ∀ x ∈ M, x ∈ A := by
    intro x hx
    by_contra hxA
    have : x ∈ combineTracks M A := by
      rw [combineTracks_eq_filter]
      simp [List.mem_filter, hx, hxA]
    rw [hc] at this
    simp at this
  have hcalls : ∀ c ∈ w2.calls, ∃ p pg err, c = Call.GetPlaylistTracks p pg err := by
    rw [fetchPlaylistTracks_eq] at hm ha
    rcases h1 : api.GetPlaylistTracks client cfg.masterPlaylist s with ⟨r1, s1⟩
    rw [h1] at hm
    cases r1 with
    | error err => simp at hm
    | ok pm =>
      simp only [Prod.mk.injEq] at hm
      obtain ⟨-, rfl⟩ := hm
      rcases h2 : api.GetPlaylistTracks client cfg.archivePlaylist s1 with ⟨r2, s2⟩
      simp only [h2] at ha
      cases r2 with
      | error err => simp at ha
      | ok pa =>
        simp only [Prod.mk.injEq] at ha
        obtain ⟨-, rfl⟩ := ha
        intro c hcmem
        simp at hcmem
        rcases hcmem with rfl | rfl
        · exact ⟨_, _, _, rfl⟩
        · exact ⟨_, _, _, rfl⟩
  have hrun : main cfg auth api requests s =
      ⟨w2, ["Fetching tracks from the master playlist...",
            "Fetching tracks from the archive playlist...",
            "No new tracks to move."], .returned⟩ := by
    unfold main
    simp [hauth, hm, ha, hc]
  rw [hrun]
  exact ⟨hsub, rfl, rfl, hcalls, rfl, rfl⟩

/-- A run for C6 on master t2 and archive t1, t2: master is not empty and is
left as it is. -/
theorem empty_plan_is_noop_witness :
    (∀ x ∈ ["t2"], x ∈ ["t1", "t2"]) ∧
    (main exampleConfig (libraryAuthenticator acceptingExchange)
      (pagedService archivedPages none none) [genuineRequest] ()).world.service = () ∧
    (main exampleConfig (libraryAuthenticator acceptingExchange)
      (pagedService archivedPages none none) [genuineRequest] ()).world.calls =
      [Call.GetPlaylistTracks "master" (some ⟨[track "t2"], ""⟩) none,
       Call.GetPlaylistTracks "archive" (some ⟨[track "t1", track "t2"], ""⟩) none] ∧
    (∀ c ∈ (main exampleConfig (libraryAuthenticator acceptingExchange)
        (pagedService archivedPages none none) [genuineRequest] ()).world.calls,
      ∃ p pg err, c = Call.GetPlaylistTracks p pg err) ∧
    (main exampleConfig (libraryAuthenticator acceptingExchange)
      (pagedService archivedPages none none) [genuineRequest] ()).stdout =
      ["Fetching tracks from the master playlist...",
       "Fetching tracks from the archive playlist...",
       "No new tracks to move."] ∧
    (main exampleConfig (libraryAuthenticator acceptingExchange)
      (pagedService archivedPages none none) [genuineRequest] ()).exit = .returned :=
  empty_plan_is_noop exampleConfig (libraryAuthenticator acceptingExchange)
    (pagedService archivedPages none none) [genuineRequest] () ⟨⟨"token-for-abc"⟩⟩
    ["t2"] ["t1", "t2"]
    ⟨(), [Call.GetPlaylistTracks "master" (some ⟨[track "t2"], ""⟩) none]⟩
    ⟨(), [Call.GetPlaylistTracks "master" (some ⟨[track "t2"], ""⟩) none,
          Call.GetPlaylistTracks "archive" (some ⟨[track "t1", track "t2"], ""⟩) none]⟩
    (by decide) rfl rfl (by decide)

/-- C7: a fetch failure blocks all mutation. When `GetPlaylistTracks` returns an
error, `fetchPlaylistTracks` returns the nil list and that error, wrapped; and a
run of `main` in which a fetch returned an error issues no add and no remove
call, the failed fetch is its last call, and it ends in `log.Fatalf` with the
fetch failure. -/
theorem fetch_failure_blocks_mutation {σ : Type} (cfg : Config) (auth : Authenticator)
    (api : WebAPI σ) (requests : List Request) (s : σ) :
    (∀ client playlistID (w : World σ) err s',
      api.GetPlaylistTracks client playlistID w.service = (.error err, s') →
      (fetchPlaylistTracks api client playlistID w).1
        = ([], some (.wrapped "failed to fetch playlist tracks: " err)) ∧
      (GoError.wrapped "failed to fetch playlist tracks: " err).Unwrap = some err ∧
      (fetchPlaylistTracks api client playlistID w).2.calls
        = w.calls ++ [Call.GetPlaylistTracks playlistID none (some err)]) ∧
    (∀ p pg err,
      Call.GetPlaylistTracks p pg (some err) ∈ (main cfg auth api requests s).world.calls →
      (∀ c ∈ (main cfg auth api requests s).world.calls,
        ∃ p' pg' err', c = Call.GetPlaylistTracks p' pg' err') ∧
      (main cfg auth api requests s).world.calls.getLast?
        = some (Call.GetPlaylistTracks p pg (some err)) ∧
      ((main cfg auth api requests s).exit =
          .fatal ("Error fetching master playlist tracks: "
            ++ ("failed to fetch playlist tracks: " ++ err.Error)) ∨
        (main cfg auth api requests s).exit =
          .fatal ("Error fetching archive playlist tracks: "
            ++ ("failed to fetch playlist tracks: " ++ err.Error)))) := by
  constructor
  · intro client playlistID w err s' h
    rw [fetchPlaylistTracks_eq, h]
    exact ⟨rfl, rfl, rfl⟩
  · intro p pg err h
    rcases main_cases cfg auth api requests s with
      ⟨-, hc, -⟩ | ⟨e1, hc, hx⟩ | ⟨pm, e1, hc, hx⟩ | ⟨pm, pa, -, hc, -⟩ |
      ⟨pm, pa, e1, -, hc, -⟩ | ⟨pm, pa, e1, -, hc, -⟩ | ⟨pm, pa, -, hc, -⟩
    · rw [hc] at h; simp at h
    · rw [hc] at h ⊢
      simp at h
      obtain ⟨rfl, rfl, rfl⟩ := h
      exact ⟨by simp, by simp, Or.inl hx⟩
    · rw [hc] at h ⊢
      simp at h
      obtain ⟨rfl, rfl, rfl⟩ := h
      exact ⟨by simp, by simp, Or.inr hx⟩
    · rw [hc] at h; simp at h
    · rw [hc] at h; simp at h
    · rw [hc] at h; simp at h
    · rw [hc] at h; simp at h

/-- Two failures for C7: a fetch of a playlist that the service does not know,
and a run whose archive playlist is such a playlist. -/
theorem fetch_failure_blocks_mutation_witness :
    ((fetchPlaylistTracks (pagedService examplePages none none) ⟨⟨"token"⟩⟩ "missing"
        ⟨(), []⟩).1
        = ([], some (.wrapped "failed to fetch playlist tracks: " (.message "not found"))) ∧
      (GoError.wrapped "failed to fetch playlist tracks: " (.message "not found")).Unwrap
        = some (.message "not found") ∧
      (fetchPlaylistTracks (pagedService examplePages none none) ⟨⟨"token"⟩⟩ "missing"
        ⟨(), []⟩).2.calls
        = [] ++ [Call.GetPlaylistTracks "missing" none (some (.message "not found"))]) ∧
    ((∀ c ∈ (main ⟨"master", "missing"⟩ (libraryAuthenticator acceptingExchange)
          (pagedService examplePages none none) [genuineRequest] ()).world.calls,
        ∃ p' pg' err', c = Call.GetPlaylistTracks p' pg' err') ∧
      (main ⟨"master", "missing"⟩ (libraryAuthenticator acceptingExchange)
          (pagedService examplePages none none) [genuineRequest] ()).world.calls.getLast?
        = some (Call.GetPlaylistTracks "missing" none (some (.message "not found"))) ∧
      ((main ⟨"master", "missing"⟩ (libraryAuthenticator acceptingExchange)
          (pagedService examplePages none none) [genuineRequest] ()).exit =
          .fatal ("Error fetching master playlist tracks: "
            ++ ("failed to fetch playlist tracks: " ++ (GoError.message "not found").Error)) ∨
        (main ⟨"master", "missing"⟩ (libraryAuthenticator acceptingExchange)
          (pagedService examplePages none none) [genuineRequest] ()).exit =
          .fatal ("Error fetching archive playlist tracks: "
            ++ ("failed to fetch playlist tracks: " ++ (GoError.message "not found").Error)))) :=
  ⟨(fetch_failure_blocks_mutation exampleConfig (libraryAuthenticator acceptingExchange)
      (pagedService examplePages none none) [genuineRequest] ()).1
      ⟨⟨"token"⟩⟩ "missing" ⟨(), []⟩ (.message "not found") () rfl,
   (fetch_failure_blocks_mutation ⟨"master", "missing"⟩ (libraryAuthenticator acceptingExchange)
      (pagedService examplePages none none) [genuineRequest] ()).2
      "missing" none (.message "not found") (by decide)⟩

/-- C8, the claim refuted: of a playlist served as the two pages t1 and t2 a
successful `fetchPlaylistTracks` returns t1 only, not t1, t2. -/
theorem fetch_stops_after_first_page :
    twoPages "master" = .ok [[track "t1"], [track "t2"]] ∧
    (fetchPlaylistTracks (pagedService twoPages none none) ⟨⟨"token"⟩⟩ "master" ⟨(), []⟩).1
      = (["t1"], none) ∧
    (fetchPlaylistTracks (pagedService twoPages none none) ⟨⟨"token"⟩⟩ "master" ⟨(), []⟩).1
      ≠ (trackIDs ([track "t1"] ++ [track "t2"]), none) := by
  refine ⟨rfl, by decide, by decide⟩

/-- C8 as amended: `fetchPlaylistTracks` makes one call, and when it succeeds the
result is the ids of the page that this call returned, in the order of the page;
of a playlist served as the pages `p :: rest` that is the ids of the first page
`p`, which is the whole playlist when `rest = []`. -/
theorem fetch_returns_first_page {σ : Type} (api : WebAPI σ) (client : Client)
    (playlistID : ID) (w : World σ) :
    (∀ page s', api.GetPlaylistTracks client playlistID w.service = (.ok page, s') →
      (fetchPlaylistTracks api client playlistID w).1 = (trackIDs page.Tracks, none) ∧
      (fetchPlaylistTracks api client playlistID w).2.calls
        = w.calls ++ [Call.GetPlaylistTracks playlistID (some page) none]) ∧
    (∀ pages addErr removeErr p rest (u : World Unit), pages playlistID = .ok (p :: rest) →
      (fetchPlaylistTracks (pagedService pages addErr removeErr) client playlistID u).1
        = (trackIDs p, none)) := by
  constructor
  · intro page s' h
    rw [fetchPlaylistTracks_eq, h]
    exact ⟨rfl, rfl⟩
  · intro pages addErr removeErr p rest u h
    rw [fetchPlaylistTracks_eq]
    cases rest with
    | nil => simp [pagedService, h]
    | cons q rest => simp [pagedService, h]

/-- Two fetches for C8: a playlist of one page is returned whole, and of a
playlist of two pages the first page is returned. -/
theorem fetch_returns_first_page_witness :
    ((fetchPlaylistTracks (pagedService examplePages none none) ⟨⟨"token"⟩⟩ "master"
        ⟨(), []⟩).1 = (trackIDs [track "t1", track "t2", track "t3"], none) ∧
      (fetchPlaylistTracks (pagedService examplePages none none) ⟨⟨"token"⟩⟩ "master"
        ⟨(), []⟩).2.calls
        = [] ++ [Call.GetPlaylistTracks "master"
            (some ⟨[track "t1", track "t2", track "t3"], ""⟩) none]) ∧
    (fetchPlaylistTracks (pagedService twoPages none none) ⟨⟨"token"⟩⟩ "master" ⟨(), []⟩).1
      = (trackIDs [track "t1"], none) :=
  ⟨(fetch_returns_first_page (pagedService examplePages none none) ⟨⟨"token"⟩⟩ "master"
      ⟨(), []⟩).1 ⟨[track "t1", track "t2", track "t3"], ""⟩ () rfl,
   (fetch_returns_first_page (pagedService examplePages none none) ⟨⟨"token"⟩⟩ "master"
      ⟨(), []⟩).2 twoPages none none [track "t1"] [[track "t2"]] ⟨(), []⟩ rfl⟩

/-- C3 at a forged redirect: the request carries the state `evil`, which is not the
state `state` of the authorization URL, and the handler passes to `auth.Token` the
state of the request itself, so the library compares the state with itself. The
handler creates a client and sends it on the channel, and `authenticate`
returns with it. For every request the call of the handler comes to the exchange
of the code alone. -/
theorem callback_accepts_forged_state :
    forgedRequest.Get "state" = "evil" ∧
    forgedRequest.Get "state" ≠ authURLState ∧
    libraryToken acceptingExchange authURLState forgedRequest
      = .error (.message "spotify: redirect state parameter doesn't match") ∧
    callbackHandler (libraryAuthenticator acceptingExchange) forgedRequest
      = .delivered ⟨⟨"token-for-abc"⟩⟩ ∧
    authenticate (libraryAuthenticator acceptingExchange) [forgedRequest]
      = some ⟨⟨"token-for-abc"⟩⟩ ∧
    (∀ (exchange : Exchange) (r : Request),
      (libraryAuthenticator exchange).Token (r.Get "state") r =
        if r.Get "error" ≠ "" then
          .error (.message ("spotify: auth failed - " ++ r.Get "error"))
        else if r.Get "code" = "" then
          .error (.message "spotify: didn't get access code")
        else exchange (r.Get "code")) := by
  refine ⟨by decide, by decide, rfl, by decide, by decide, fun exchange r => ?_⟩
  simp [libraryAuthenticator, libraryToken]

end Spotify

namespace Godo

theorem iterate_charClass_reaches_end (ranges : List (Char × Char)) (fuel n : Nat)
    (l : List Char) (hf : l.length ≤ fuel) :
    (∃ q ∈ iterate (fun q => (Regexp.charClass ranges).run q) fuel (n, l), q.2 = []) ↔
      l ≠ [] ∧ ∀ c ∈ l, inClass ranges c = true := by
  induction fuel generalizing n l with
  | zero =>
    have hl : l = [] := List.length_eq_zero.mp (Nat.le_zero.mp hf)
    subst hl
    simp [iterate]
  | succ f ih =>
    cases l with
    | nil => simp [iterate, Regexp.run]
    | cons c rest =>
      have hrest : rest.length ≤ f := by simpa using hf
      by_cases hc : inClass ranges c = true
      · have hstep : iterate (fun q => (Regexp.charClass ranges).run q) (f + 1) (n, c :: rest)
            = (n + 1, rest) :: iterate (fun q => (Regexp.charClass ranges).run q) f (n + 1, rest) := by
          simp [iterate, Regexp.run, hc]
        rw [hstep]
        simp only [List.exists_mem_cons_iff ,ih (n + 1) rest hrest]
        by_cases hr : rest = []
        · subst hr; simp [hc]
        · simp [hr, hc]
      · have hstep : iterate (fun q => (Regexp.charClass ranges).run q) (f + 1) (n, c :: rest)
            = [] := by
          simp [iterate, Regexp.run, hc]
        rw [hstep]
        simp [hc]

theorem validName_run_ne_nil (i : Nat) (l : List Char) :
    validName.run (i, l) ≠ [] ↔
      i = 0 ∧ l ≠ [] ∧
        ∀ c ∈ l, inClass [('a', 'z'), ('A', 'Z'), ('0', '9'), ('_', '_')] c = true := by
  by_cases hi : i = 0
  · subst hi
    rw [← iterate_charClass_reaches_end _ (l.length + 1) 0 l (Nat.le_succ _)]
    simp [validName, Regexp.run]
  · simp [validName, Regexp.run, hi]


theorem inClass_validName (c : Char) :
    inClass [('a', 'z'), ('A', 'Z'), ('0', '9'), ('_', '_')] c
      = (c.isAlphanum || decide (c = '_')) := by
  have h : (decide ('_' ≤ c) && decide (c ≤ '_')) = decide (c = '_') := by
    by_cases hc : c = '_'
    · subst hc; decide
    · have : ¬ ('_' ≤ c ∧ c ≤ '_') := fun ⟨h1, h2⟩ => hc (le_antisymm h2 h1)
      rw [← Bool.decide_and]
      simp only [this, hc]
  have hle : ∀ a : Char, (a ≤ c) = (a.val ≤ c.val) := fun _ => rfl
  have hge : ∀ a : Char, (c ≤ a) = (c.val ≤ a.val) := fun _ => rfl
  have e1 : 'a'.val = 97 := rfl
  have e2 : 'z'.val = 122 := rfl
  have e3 : 'A'.val = 65 := rfl
  have e4 : 'Z'.val = 90 := rfl
  have e5 : '0'.val = 48 := rfl
  have e6 : '9'.val = 57 := rfl
  simp only [inClass, List.any_cons, List.any_nil, Bool.or_false, h]
  simp only [Char.isAlphanum, Char.isAlpha, Char.isUpper, Char.isLower, Char.isDigit,
    hle, hge, e1, e2, e3, e4, e5, e6, ge_iff_le]
  rw [Bool.eq_iff_iff]
  simp only [Bool.or_eq_true, Bool.and_eq_true, decide_eq_true_eq]
  tauto

theorem isValidTableName_eq_true (s : String) :
    isValidTableName s = true ↔
      s ≠ "" ∧ ∀ c ∈ s.toList, c.isAlpha = true ∨ c.isDigit = true ∨ c = '_' := by
  have hne : s ≠ "" ↔ s.toList ≠ [] := by
    constructor
    · intro h hl
      apply h
      exact String.ext hl
    · intro h hs
      subst hs
      exact h rfl
  unfold isValidTableName Regexp.MatchString
  rw [List.any_eq_true]
  constructor
  · rintro ⟨i, -, hi⟩
    have hrun : validName.run (i, s.toList.drop i) ≠ [] := by
      intro h0
      rw [h0] at hi
      simp at hi
    obtain ⟨rfl, hl, hall⟩ := (validName_run_ne_nil _ _).mp hrun
    rw [List.drop_zero] at hl hall
    refine ⟨hne.mpr hl, fun c hc => ?_⟩
    have := hall c hc
    rw [inClass_validName] at this
    simpa [Char.isAlphanum, or_assoc] using this
  · rintro ⟨h1, h2⟩
    refine ⟨0, by simp, ?_⟩
    have hrun : validName.run (0, s.toList.drop 0) ≠ [] := by
      rw [validName_run_ne_nil, List.drop_zero]
      refine ⟨rfl, hne.mp h1, fun c hc => ?_⟩
      rw [inClass_validName]
      simpa [Char.isAlphanum, or_assoc] using h2 c hc
    cases hr : validName.run (0, s.toList.drop 0) with
    | nil => exact absurd hr hrun
    | cons a l => simp

/-- C10: `isValidTableName s` holds exactly when `s` is not empty and each of its
characters is an ASCII letter, an ASCII digit or `_`, so that a name with a space,
a quote, a semicolon or a newline in it is rejected; and `createNewTodoList` and
`deleteTodoList` execute their statement, with the name in it, exactly when the
name is valid, and execute nothing otherwise. -/
theorem isValidTableName_spec (s : String) :
    (isValidTableName s = true ↔
      s ≠ "" ∧ ∀ c ∈ s.toList, c.isAlpha = true ∨ c.isDigit = true ∨ c = '_') ∧
    (∀ c ∈ s.toList, c = ' ' ∨ c = Char.ofNat 39 ∨ c = '"' ∨ c = ';' ∨ c = '\n' →
      isValidTableName s = false) ∧
    (∀ (σ : Type) (exec : Exec σ) (w : Session σ),
      (createNewTodoList exec s w).executed
        = (if isValidTableName s = true then w.executed ++ [createStatement s]
            else w.executed) ∧
      (deleteTodoList exec s w).executed
        = (if isValidTableName s = true then w.executed ++ [dropStatement s]
            else w.executed)) := by
  refine ⟨isValidTableName_eq_true s, ?_, ?_⟩
  · intro c hc hbad
    cases hv : isValidTableName s with
    | false => rfl
    | true =>
      exfalso
      have hgood := ((isValidTableName_eq_true s).mp hv).2 c hc
      rcases hbad with rfl | rfl | rfl | rfl | rfl <;> revert hgood <;> decide
  · intro σ exec w
    cases hv : isValidTableName s with
    | false => simp [createNewTodoList, deleteTodoList, hv]
    | true =>
      constructor
      · simp only [createNewTodoList, hv]
        cases (exec (createStatement s) w.db).1 <;> simp
      · simp only [deleteTodoList, hv]
        cases (exec (dropStatement s) w.db).1 <;> simp

/-- Names for C10: a name of letters, digits and `_` is valid, and the empty name
and a name that ends in a newline are not. -/
theorem isValidTableName_spec_witness :
    isValidTableName "my_list1" = true ∧
    isValidTableName "" = false ∧
    isValidTableName "todo\n" = false :=
  ⟨(isValidTableName_spec "my_list1").1.mpr (by decide),
   by decide,
   (isValidTableName_spec "todo\n").2.1 '\n' (by decide) (by decide)⟩

end Godo
